import Mathlib

/-!
Verification of the throttled cancellable action dispatcher (`EditorAction`)
and the target-resolution pass (`update_targets`) from
`crates/editor/src/ui/build_mode/mod.rs`.

The Rust code is shallowly embedded: the dispatcher's fields plus the
observable effect traces (values sent on its `futures_signals` channel,
`client_push_intent` submissions performed by the consumer task, and
`rpc_undo_head_exact` calls spawned by `cancel`) are explicit state, and each
Rust method becomes a pure state-transformer.
-/

/-- Correlation ids are opaque strings in the source (`friendly_id`); modelled
as natural numbers. -/
abbrev CorrelationId := Nat

/-- Persistent entity identifiers (`EntityUid`, opaque strings); modelled as
natural numbers. -/
abbrev EntityUid := Nat

/-- Live entity handles (`EntityId`); modelled as natural numbers. -/
abbrev EntityId := Nat

/-- Modelled from the spec: `friendly_id` lives in `kiwi_std`, which is not
part of the sources here; the spec calls the correlation id "an opaque,
process-unique string minted lazily". It is modelled as drawing a fresh
number from a freshness counter, so distinct mints yield distinct ids. -/
def friendly_id (fresh : Nat) : CorrelationId × Nat :=
  (fresh, fresh + 1)

/-- State of one `EditorAction<T>` dispatcher together with the observable
effect traces of its methods and of its spawned consumer task.

Fields mirroring the Rust struct:
* `id` — the `id: Option<String>` field;
* `nextFresh` — freshness source backing the modelled `friendly_id`;
* `slot` — current value of the single-slot `futures_signals` channel
  (created as `channel(None)`, overwritten by every `tx.send`);
* `dirty` — whether the channel value changed since the consumer last
  observed it (the signal fires `for_each` once for the initial value and
  then once per change, throttled).

Effect traces:
* `sends` — every value the producer side put on the channel via `tx.send`;
* `submissions` — every `client_push_intent(client, intent, arg, Some(id), None)`
  call performed by the consumer task;
* `undoCalls` — every `client.rpc(rpc_undo_head_exact, id)` spawned by
  `cancel`. -/
structure EditorAction (T : Type) where
  id : Option CorrelationId
  nextFresh : Nat
  slot : Option (CorrelationId × T)
  dirty : Bool
  sends : List (Option (CorrelationId × T))
  submissions : List (CorrelationId × T)
  undoCalls : List CorrelationId
  deriving Repr, DecidableEq

/-- `EditorAction::new`: the channel starts holding `None`
(`futures_signals::signal::channel(None)`), which the consumer will observe
once (hence `dirty := true`); no id is set and no effects have happened. -/
def EditorAction.new (T : Type) : EditorAction T :=
  { id := none, nextFresh := 0, slot := none, dirty := true,
    sends := [], submissions := [], undoCalls := [] }

/-- `EditorAction::push_intent`:
`let id = self.id.get_or_insert_with(friendly_id).clone();`
`let _ = self.tx.send(Some((id, arg)));` -/
def EditorAction.push_intent (s : EditorAction T) (arg : T) : EditorAction T :=
  match s.id with
  | some i =>
    { s with slot := some (i, arg), dirty := true,
             sends := s.sends ++ [some (i, arg)] }
  | none =>
    let (i, fresh) := friendly_id s.nextFresh
    { s with id := some i, nextFresh := fresh,
             slot := some (i, arg), dirty := true,
             sends := s.sends ++ [some (i, arg)] }

/-- `EditorAction::confirm`: `self.id = None` — nothing else. -/
def EditorAction.confirm (s : EditorAction T) : EditorAction T :=
  { s with id := none }

/-- `EditorAction::cancel` (note: takes `&self`, so it cannot clear `id`):
if `self.id` is `Some(id)`, spawn `client.rpc(rpc_undo_head_exact, id)`;
otherwise do nothing. -/
def EditorAction.cancel (s : EditorAction T) : EditorAction T :=
  match s.id with
  | some i => { s with undoCalls := s.undoCalls ++ [i] }
  | none => s

/-- `impl Drop for EditorAction`: `fn drop(&mut self) { self.cancel() }`. -/
def EditorAction.drop (s : EditorAction T) : EditorAction T :=
  s.cancel

/-- `n` successive `cancel()` calls. -/
def EditorAction.cancels (s : EditorAction T) : Nat → EditorAction T
  | 0 => s
  | n + 1 => (s.cancels n).cancel

/-- A burst of `push_intent` calls, in order. -/
def EditorAction.pushes (s : EditorAction T) (args : List T) : EditorAction T :=
  args.foldl EditorAction.push_intent s

/-- The correlation id the next `push_intent` will carry: the outstanding one
if set, otherwise the one `friendly_id` would mint. -/
def EditorAction.mintedId (s : EditorAction T) : CorrelationId :=
  s.id.getD s.nextFresh

/-- One observation by the throttled consumer task (at most one per throttle
window): `rx.throttle(..).for_each(..)` delivers the channel's current value
when it changed since the last delivery, and the body performs
`client_push_intent` only for `Some((id, arg))` values. -/
def EditorAction.consumeWindow (s : EditorAction T) : EditorAction T :=
  if s.dirty then
    match s.slot with
    | some v => { s with submissions := s.submissions ++ [v], dirty := false }
    | none => { s with dirty := false }
  else s

/- Helper lemmas about the dispatcher transformers. -/

theorem EditorAction.cancel_id (s : EditorAction T) : s.cancel.id = s.id := by
  cases h : s.id <;> simp [EditorAction.cancel, h]

theorem EditorAction.cancels_spec (s : EditorAction T) (x : CorrelationId)
    (hx : s.id = some x) (n : Nat) :
    (s.cancels n).id = some x ∧
      (s.cancels n).undoCalls = s.undoCalls ++ List.replicate n x := by
  induction n with
  | zero => exact ⟨hx, by simp [EditorAction.cancels]⟩
  | succ n ih =>
    obtain ⟨hid, hu⟩ := ih
    constructor
    · rw [EditorAction.cancels, EditorAction.cancel_id, hid]
    · show ((s.cancels n).cancel).undoCalls = _
      unfold EditorAction.cancel
      rw [hid]
      simp [hu, List.replicate_succ']

theorem EditorAction.cancel_undo (s : EditorAction T) (x : CorrelationId)
    (hx : s.id = some x) :
    s.cancel.undoCalls = s.undoCalls ++ [x] := by
  unfold EditorAction.cancel
  rw [hx]

/-- Claim C1 counterexample: on a dispatcher with an outstanding correlation
id (minted by one `push_intent`), an explicit `cancel()` followed by the
dispatcher being dropped issues TWO `rpc_undo_head_exact` calls with that id,
not exactly one as the claim states: `cancel` cannot clear `id` (it takes
`&self`), so `Drop` cancels again. -/
theorem C1_counterexample :
    ((((EditorAction.new Unit).push_intent ()).cancel).drop).undoCalls = [0, 0] ∧
      ¬ ((((EditorAction.new Unit).push_intent ()).cancel).drop).undoCalls.length = 1 := by
  decide

/-- Claim C1 (amended): for a dispatcher with outstanding correlation id `x`,
each `cancel()` — including the one issued by `Drop` — appends exactly one
`rpc_undo_head_exact` call with id `x`; since `cancel` leaves the id set,
`n` explicit cancels followed by destruction issue `n + 1` undo calls, all
with id `x`. Destruction alone (`n = 0`) issues exactly one. -/
theorem C1_amended (T : Type) (s : EditorAction T) (x : CorrelationId)
    (hx : s.id = some x) (n : Nat) :
    ((s.cancels n).drop).undoCalls = s.undoCalls ++ List.replicate (n + 1) x := by
  obtain ⟨hid, hu⟩ := EditorAction.cancels_spec s x hx n
  show ((s.cancels n).cancel).undoCalls = _
  rw [EditorAction.cancel_undo _ x hid, hu]
  simp [List.replicate_succ']

/-- Witness for `C1_amended` at a concrete dispatcher: after one
`push_intent` the id `0` is outstanding, and one cancel plus drop yields
undo trace `[0, 0]`. -/
theorem C1_amended_witness :
    ((EditorAction.new Unit).push_intent ()).id = some 0 ∧
      (((((EditorAction.new Unit).push_intent ()).cancels 1)).drop).undoCalls =
        (((EditorAction.new Unit).push_intent ())).undoCalls ++ List.replicate 2 0 :=
  ⟨by decide, C1_amended Unit ((EditorAction.new Unit).push_intent ()) 0 (by decide) 1⟩

/- Further helper lemmas on `push_intent` bursts. -/

theorem EditorAction.push_intent_outstanding (s : EditorAction T) (x : CorrelationId)
    (arg : T) (hx : s.id = some x) :
    (s.push_intent arg).id = some x ∧
      (s.push_intent arg).nextFresh = s.nextFresh ∧
      (s.push_intent arg).sends = s.sends ++ [some (x, arg)] ∧
      (s.push_intent arg).submissions = s.submissions := by
  simp [EditorAction.push_intent, hx]

theorem EditorAction.push_intent_mint (s : EditorAction T) (arg : T)
    (h : s.id = none) :
    (s.push_intent arg).id = some s.nextFresh ∧
      (s.push_intent arg).nextFresh = s.nextFresh + 1 ∧
      (s.push_intent arg).sends = s.sends ++ [some (s.nextFresh, arg)] ∧
      (s.push_intent arg).submissions = s.submissions := by
  simp [EditorAction.push_intent, h, friendly_id]

theorem EditorAction.pushes_outstanding (args : List T) (s : EditorAction T)
    (x : CorrelationId) (hx : s.id = some x) :
    (s.pushes args).id = some x ∧
      (s.pushes args).nextFresh = s.nextFresh ∧
      (s.pushes args).sends = s.sends ++ args.map (fun a => some (x, a)) ∧
      (s.pushes args).submissions = s.submissions := by
  induction args generalizing s with
  | nil => exact ⟨hx, rfl, by simp [EditorAction.pushes], rfl⟩
  | cons a rest ih =>
    obtain ⟨h1, h2, h3, h4⟩ := EditorAction.push_intent_outstanding s x a hx
    obtain ⟨g1, g2, g3, g4⟩ := ih (s.push_intent a) h1
    have hfold : s.pushes (a :: rest) = (s.push_intent a).pushes rest := rfl
    rw [hfold]
    exact ⟨g1, by rw [g2, h2], by rw [g3, h3]; simp, by rw [g4, h4]⟩

/-- Well-formedness carried by every reachable dispatcher state: the
outstanding id, if any, was drawn from the freshness counter. -/
def EditorAction.wf (s : EditorAction T) : Prop :=
  ∀ x, s.id = some x → x < s.nextFresh

theorem EditorAction.wf_new (T : Type) : (EditorAction.new T).wf := by
  intro x h
  simp [EditorAction.new] at h

theorem EditorAction.wf_push_intent (s : EditorAction T) (arg : T) (h : s.wf) :
    (s.push_intent arg).wf := by
  intro x hx
  cases hid : s.id with
  | some i =>
    obtain ⟨h1, h2, _, _⟩ := EditorAction.push_intent_outstanding s i arg hid
    rw [h1] at hx
    injection hx with hix
    rw [h2, ← hix]
    exact h i hid
  | none =>
    obtain ⟨h1, h2, _, _⟩ := EditorAction.push_intent_mint s arg hid
    rw [h1] at hx
    injection hx with hix
    rw [h2, ← hix]
    exact Nat.lt_succ_self _

theorem EditorAction.wf_confirm (s : EditorAction T) : (s.confirm).wf := by
  intro x hx
  simp [EditorAction.confirm] at hx

theorem EditorAction.wf_cancel (s : EditorAction T) (h : s.wf) :
    (s.cancel).wf := by
  intro x hx
  rw [EditorAction.cancel_id] at hx
  have hnf : (s.cancel).nextFresh = s.nextFresh := by
    cases hid : s.id <;> simp [EditorAction.cancel, hid]
  rw [hnf]
  exact h x hx

/-- Claim C2: at most one correlation id is live per dispatcher (the `id`
field), and it is never re-minted while outstanding: (1) `push_intent` on a
dispatcher with outstanding id `x` keeps `x` and mints nothing; (2) on an
idle dispatcher it lazily mints the next fresh id and the minting push
already carries it; (3) every channel send of a burst of pushes after the
mint, before any `confirm`/`cancel`, carries the same id `x`; (4) a
`push_intent` after `confirm` mints a strictly different id. -/
theorem C2_correlation_invariant (T : Type) :
    (∀ (s : EditorAction T) (x : CorrelationId) (arg : T), s.id = some x →
        (s.push_intent arg).id = some x ∧
          (s.push_intent arg).nextFresh = s.nextFresh) ∧
    (∀ (s : EditorAction T) (arg : T), s.id = none →
        (s.push_intent arg).id = some s.nextFresh ∧
          (s.push_intent arg).sends = s.sends ++ [some (s.nextFresh, arg)]) ∧
    (∀ (s : EditorAction T) (x : CorrelationId) (args : List T), s.id = some x →
        (s.pushes args).sends = s.sends ++ args.map (fun a => some (x, a))) ∧
    (∀ (s : EditorAction T) (x : CorrelationId) (arg : T),
        s.id = some x → s.wf →
        ((s.confirm).push_intent arg).id = some s.nextFresh ∧ s.nextFresh ≠ x) := by
  refine ⟨?_, ?_, ?_, ?_⟩
  · intro s x arg hx
    have h := EditorAction.push_intent_outstanding s x arg hx
    exact ⟨h.1, h.2.1⟩
  · intro s arg h
    have hm := EditorAction.push_intent_mint s arg h
    exact ⟨hm.1, hm.2.2.1⟩
  · intro s x args hx
    exact (EditorAction.pushes_outstanding args s x hx).2.2.1
  · intro s x arg hx hwf
    have hc : (s.confirm).id = none := rfl
    have hm := EditorAction.push_intent_mint (s.confirm) arg hc
    have hnf : (s.confirm).nextFresh = s.nextFresh := rfl
    have hlt : x < s.nextFresh := hwf x hx
    exact ⟨by rw [hm.1, hnf], Nat.ne_of_gt hlt⟩

/-- Witness for `C2_correlation_invariant`: concrete dispatcher after one
push (`id = some 0`, `nextFresh = 1`); a further push keeps id `0`, a burst
of two pushes sends id `0` twice, and confirm-then-push mints id `1 ≠ 0`. -/
theorem C2_correlation_invariant_witness :
    ((((EditorAction.new Unit).push_intent ()).push_intent ()).id = some 0 ∧
        (((EditorAction.new Unit).push_intent ()).push_intent ()).nextFresh =
          ((EditorAction.new Unit).push_intent ()).nextFresh) ∧
      (((EditorAction.new Unit).push_intent ()).id =
          some (EditorAction.new Unit).nextFresh ∧
        ((EditorAction.new Unit).push_intent ()).sends =
          (EditorAction.new Unit).sends ++
            [some ((EditorAction.new Unit).nextFresh, ())]) ∧
      ((((EditorAction.new Unit).push_intent ()).pushes [(), ()]).sends =
        ((EditorAction.new Unit).push_intent ()).sends ++
          [(), ()].map (fun a => some (0, a))) ∧
      (((((EditorAction.new Unit).push_intent ()).confirm).push_intent ()).id =
          some ((EditorAction.new Unit).push_intent ()).nextFresh ∧
        ((EditorAction.new Unit).push_intent ()).nextFresh ≠ 0) :=
  ⟨(C2_correlation_invariant Unit).1 ((EditorAction.new Unit).push_intent ()) 0 ()
      (by decide),
    (C2_correlation_invariant Unit).2.1 (EditorAction.new Unit) () (by decide),
    (C2_correlation_invariant Unit).2.2.1 ((EditorAction.new Unit).push_intent ())
      0 [(), ()] (by decide),
    (C2_correlation_invariant Unit).2.2.2 ((EditorAction.new Unit).push_intent ())
      0 () (by decide) (fun x hx => by simp_all [EditorAction.new, EditorAction.push_intent, friendly_id])⟩

/-- Claim C4: `confirm` clears the id to `None`, sends nothing on the
channel, and issues no undo; a subsequent drop finds the id `None` and also
issues no undo; more generally drop on an idle dispatcher is a no-op. -/
theorem C4_confirm_terminal_clean (T : Type) :
    (∀ s : EditorAction T,
        (s.confirm).id = none ∧
          (s.confirm).sends = s.sends ∧
          (s.confirm).undoCalls = s.undoCalls ∧
          ((s.confirm).drop).undoCalls = s.undoCalls) ∧
    (∀ s : EditorAction T, s.id = none → s.drop = s) := by
  constructor
  · intro s
    exact ⟨rfl, rfl, rfl, rfl⟩
  · intro s h
    simp [EditorAction.drop, EditorAction.cancel, h]

/-- Witness for `C4_confirm_terminal_clean` at a dispatcher that pushed once
and confirmed: no undo call happens on drop. -/
theorem C4_confirm_terminal_clean_witness :
    ((((EditorAction.new Unit).push_intent ()).confirm).id = none ∧
        (((EditorAction.new Unit).push_intent ()).confirm).sends =
          ((EditorAction.new Unit).push_intent ()).sends ∧
        (((EditorAction.new Unit).push_intent ()).confirm).undoCalls =
          ((EditorAction.new Unit).push_intent ()).undoCalls ∧
        ((((EditorAction.new Unit).push_intent ()).confirm).drop).undoCalls =
          ((EditorAction.new Unit).push_intent ()).undoCalls) ∧
      (EditorAction.new Unit).drop = EditorAction.new Unit :=
  ⟨(C4_confirm_terminal_clean Unit).1 ((EditorAction.new Unit).push_intent ()),
    (C4_confirm_terminal_clean Unit).2 (EditorAction.new Unit) (by decide)⟩

/-- Claim C10: `cancel` leaves the `id` field unchanged (it takes `&self`):
with `id = Some x`, after `cancel()` the id is still `Some x`; a
`push_intent` after cancel reuses `x` and mints nothing; and a later drop
finds the id still outstanding, issuing a second undo call for `x`. -/
theorem C10_cancel_frame (T : Type) (s : EditorAction T) (x : CorrelationId)
    (hx : s.id = some x) :
    (s.cancel).id = some x ∧
      (∀ arg : T, ((s.cancel).push_intent arg).id = some x ∧
        ((s.cancel).push_intent arg).nextFresh = s.nextFresh) ∧
      ((s.cancel).drop).undoCalls = s.undoCalls ++ [x, x] := by
  have hid : (s.cancel).id = some x := by rw [EditorAction.cancel_id]; exact hx
  have hnf : (s.cancel).nextFresh = s.nextFresh := by
    simp [EditorAction.cancel, hx]
  refine ⟨hid, ?_, ?_⟩
  · intro arg
    have h := EditorAction.push_intent_outstanding (s.cancel) x arg hid
    exact ⟨h.1, by rw [h.2.1, hnf]⟩
  · show ((s.cancel).cancel).undoCalls = _
    rw [EditorAction.cancel_undo _ x hid, EditorAction.cancel_undo s x hx]
    simp

theorem EditorAction.pushes_spec (args : List T) (s : EditorAction T)
    (y : T) (hy : args.getLast? = some y) :
    (s.pushes args).slot = some (s.mintedId, y) ∧
      (s.pushes args).dirty = true ∧
      (s.pushes args).submissions = s.submissions := by
  induction args generalizing s with
  | nil => simp at hy
  | cons a rest ih =>
    have hfold : s.pushes (a :: rest) = (s.push_intent a).pushes rest := rfl
    cases rest with
    | nil =>
      simp at hy
      subst hy
      rw [hfold]
      cases hid : s.id with
      | some i =>
        refine ⟨?_, ?_, ?_⟩ <;>
          simp [EditorAction.pushes, EditorAction.push_intent, hid,
            EditorAction.mintedId]
      | none =>
        refine ⟨?_, ?_, ?_⟩ <;>
          simp [EditorAction.pushes, EditorAction.push_intent, hid,
            EditorAction.mintedId, friendly_id]
    | cons b rest2 =>
      rw [hfold]
      have hy2 : (b :: rest2).getLast? = some y := by
        rw [← hy]
        exact (List.getLast?_cons_cons).symm
      have hmid : (s.push_intent a).mintedId = s.mintedId ∧
          (s.push_intent a).submissions = s.submissions := by
        cases hid : s.id with
        | some i =>
          constructor <;>
            simp [EditorAction.push_intent, hid, EditorAction.mintedId]
        | none =>
          constructor <;>
            simp [EditorAction.push_intent, hid, EditorAction.mintedId,
              friendly_id]
      obtain ⟨g1, g2, g3⟩ := ih (s.push_intent a) hy2
      exact ⟨by rw [g1, hmid.1], g2, by rw [g3, hmid.2]⟩

/-- Claim C3: a burst of `N ≥ 1` `push_intent` calls whose values all fall
within one throttle window leaves the single-slot channel holding only the
last pushed value (earlier values are overwritten, never queued), and the
consumer's one delivery for that window performs exactly one
`client_push_intent` call, carrying that last value under the dispatcher's
correlation id. -/
theorem C3_coalescing (T : Type) (s : EditorAction T) (args : List T) (y : T)
    (hy : args.getLast? = some y) :
    (s.pushes args).slot = some (s.mintedId, y) ∧
      ((s.pushes args).consumeWindow).submissions =
        s.submissions ++ [(s.mintedId, y)] := by
  obtain ⟨g1, g2, g3⟩ := EditorAction.pushes_spec args s y hy
  refine ⟨g1, ?_⟩
  simp [EditorAction.consumeWindow, g1, g2, g3]

/-- Witness for `C3_coalescing`: three pushes `1, 2, 3` on a fresh
dispatcher result in exactly one submission, `(0, 3)`. -/
theorem C3_coalescing_witness :
    ((EditorAction.new Nat).pushes [1, 2, 3]).slot =
        some ((EditorAction.new Nat).mintedId, 3) ∧
      (((EditorAction.new Nat).pushes [1, 2, 3]).consumeWindow).submissions =
        (EditorAction.new Nat).submissions ++
          [((EditorAction.new Nat).mintedId, 3)] :=
  C3_coalescing Nat (EditorAction.new Nat) [1, 2, 3] 3 (by decide)

/-- Claim C8 counterexample: neither `confirm` nor `cancel` produces a
`None` value on the dispatcher's channel, contrary to the claim. After a
push, both leave the channel's send history exactly `[Some((0, ..))]` —
no `None` was ever sent by a reset. -/
theorem C8_counterexample :
    ((((EditorAction.new Unit).push_intent ()).confirm).sends = [some (0, ())] ∧
        ¬ none ∈ (((EditorAction.new Unit).push_intent ()).confirm).sends) ∧
      ((((EditorAction.new Unit).push_intent ()).cancel).sends = [some (0, ())] ∧
        ¬ none ∈ (((EditorAction.new Unit).push_intent ()).cancel).sends) := by
  decide

/-- Claim C8 (amended): `cancel()` and `confirm()` do not send anything on
the dispatcher's channel — `confirm` only clears the correlation id and
`cancel` only spawns the undo RPC; the `None` channel value is only the
channel's initial value. The consumer does treat a delivered `None` as a
no-op: a `client_push_intent` submission is performed only for `Some`
values. -/
theorem C8_amended (T : Type) :
    (∀ s : EditorAction T,
        (s.confirm).sends = s.sends ∧ (s.confirm).slot = s.slot) ∧
    (∀ s : EditorAction T,
        (s.cancel).sends = s.sends ∧ (s.cancel).slot = s.slot) ∧
    (∀ s : EditorAction T, s.slot = none →
        (s.consumeWindow).submissions = s.submissions) ∧
    (∀ (s : EditorAction T) (v : CorrelationId × T),
        s.dirty = true → s.slot = some v →
        (s.consumeWindow).submissions = s.submissions ++ [v]) := by
  refine ⟨fun s => ⟨rfl, rfl⟩, fun s => ?_, fun s hs => ?_, fun s v hd hs => ?_⟩
  · cases hid : s.id <;> simp [EditorAction.cancel, hid]
  · cases hd : s.dirty <;> simp [EditorAction.consumeWindow, hs, hd]
  · simp [EditorAction.consumeWindow, hs, hd]

/-- Witness for `C8_amended`: the fresh dispatcher's initial `None` delivery
submits nothing; after one push, the delivery submits exactly that value. -/
theorem C8_amended_witness :
    ((EditorAction.new Unit).consumeWindow).submissions =
        (EditorAction.new Unit).submissions ∧
      (((EditorAction.new Unit).push_intent ()).consumeWindow).submissions =
        ((EditorAction.new Unit).push_intent ()).submissions ++ [(0, ())] :=
  ⟨(C8_amended Unit).2.2.1 (EditorAction.new Unit) (by decide),
    (C8_amended Unit).2.2.2 ((EditorAction.new Unit).push_intent ()) (0, ())
      (by decide) (by decide)⟩

/-- Witness for `C10_cancel_frame` at a dispatcher that pushed once: after
cancel the id is still `0`, a push after cancel still carries id `0`, and
drop after cancel produces the double undo trace `[0, 0]`. -/
theorem C10_cancel_frame_witness :
    ((((EditorAction.new Unit).push_intent ()).cancel).id = some 0) ∧
      (((((EditorAction.new Unit).push_intent ()).cancel).push_intent ()).id =
        some 0) ∧
      (((((EditorAction.new Unit).push_intent ()).cancel).drop).undoCalls =
        ((EditorAction.new Unit).push_intent ()).undoCalls ++ [0, 0]) :=
  ⟨(C10_cancel_frame Unit ((EditorAction.new Unit).push_intent ()) 0 (by decide)).1,
    ((C10_cancel_frame Unit ((EditorAction.new Unit).push_intent ()) 0
        (by decide)).2.1 ()).1,
    (C10_cancel_frame Unit ((EditorAction.new Unit).push_intent ()) 0
        (by decide)).2.2⟩

/-- The world mirror as `update_targets` sees it under the `game_state`
lock: the `uid_lookup` resource maps persistent uids to live entity ids
(`Err` modelled as `none`), and `world.exists` checks a live id. -/
structure WorldState where
  uidLookup : EntityUid → Option EntityId
  existsId : EntityId → Bool

/-- One arm of the `filter_map` in `update_targets`:
`match state.world.resource(uid_lookup()).get(&uid) {`
`  Ok(id) if state.world.exists(id) => Some(uid), _ => None }`. -/
def resolveUid (w : WorldState) (uid : EntityUid) : Option EntityUid :=
  match w.uidLookup uid with
  | some id => if w.existsId id then some uid else none
  | none => none

/-- The core of `update_targets`:
`selection.iter().filter_map(..).collect_vec()`. -/
def resolveTargets (w : WorldState) (selection : List EntityUid) :
    List EntityUid :=
  selection.filterMap (resolveUid w)

theorem resolveUid_eq (w : WorldState) (u : EntityUid) :
    resolveUid w u = if (resolveUid w u).isSome then some u else none := by
  unfold resolveUid
  cases h : w.uidLookup u with
  | none => simp
  | some i => cases he : w.existsId i <;> simp [he]

theorem resolveTargets_eq_filter (w : WorldState) (sel : List EntityUid) :
    resolveTargets w sel = sel.filter (fun u => (resolveUid w u).isSome) := by
  induction sel with
  | nil => rfl
  | cons a rest ih =>
    show (a :: rest).filterMap (resolveUid w) = _
    rw [List.filterMap_cons, List.filter_cons]
    cases h : resolveUid w a with
    | none => simpa [h] using ih
    | some b =>
      have hb : b = a := by
        have h2 := resolveUid_eq w a
        rw [h] at h2
        simpa using h2
      subst hb
      simpa [h] using ih

/-- Claim C5: one resolution pass produces exactly the subsequence of the
selection whose identifiers resolve to a currently-existing entity: the
result equals the order-preserving filter of the selection by the
existence lookup, it is a sublist (order preserved), and every identifier
in it passed the lookup. -/
theorem C5_resolution_filtering (w : WorldState) (sel : List EntityUid) :
    resolveTargets w sel = sel.filter (fun u => (resolveUid w u).isSome) ∧
      (resolveTargets w sel).Sublist sel ∧
      ∀ u ∈ resolveTargets w sel, (resolveUid w u).isSome := by
  refine ⟨resolveTargets_eq_filter w sel, ?_, ?_⟩
  · rw [resolveTargets_eq_filter]
    exact List.filter_sublist sel
  · intro u hu
    rw [resolveTargets_eq_filter] at hu
    exact (List.mem_filter.mp hu).2

/-- World used in witnesses where entity with uid 1 is missing from
`uid_lookup` and every looked-up entity exists. -/
def wB : WorldState :=
  { uidLookup := fun u => if u = 1 then none else some u,
    existsId := fun _ => true }

/-- Witness for `C5_resolution_filtering`: selection `[0, 1, 2]` with `1`
non-existing resolves to `[0, 2]`, order preserved. -/
theorem C5_resolution_filtering_witness :
    resolveTargets wB [0, 1, 2] =
        [0, 1, 2].filter (fun u => (resolveUid wB u).isSome) ∧
      (resolveTargets wB [0, 1, 2]).Sublist [0, 1, 2] ∧
      (resolveUid wB 0).isSome ∧
      resolveTargets wB [0, 1, 2] = [0, 2] :=
  ⟨(C5_resolution_filtering wB [0, 1, 2]).1,
    (C5_resolution_filtering wB [0, 1, 2]).2.1,
    (C5_resolution_filtering wB [0, 1, 2]).2.2 0 (by decide),
    by decide⟩

/-- World used in counterexamples where every uid resolves and exists. -/
def wAll : WorldState :=
  { uidLookup := fun u => some u, existsId := fun _ => true }

/-- Claim C6 counterexample: `update_targets` performs no deduplication —
its `filter_map` keeps every resolving occurrence. Selection `[0, 0, 1]`
with all entities existing resolves to `[0, 0, 1]`, not `[0, 1]` as the
claim states. -/
theorem C6_counterexample :
    resolveTargets wAll [0, 0, 1] = [0, 0, 1] ∧
      resolveTargets wAll [0, 0, 1] ≠ [0, 1] := by
  decide

/-- Claim C6 (amended): the resolution pass performs no deduplication: it
preserves the multiplicity of every resolving identifier (so `[A, A, B]`
with all existing resolves to `[A, A, B]`), drops non-resolving ones
entirely, and its output is duplicate-free only when the selection is. -/
theorem C6_amended (w : WorldState) (sel : List EntityUid) (a : EntityUid) :
    ((resolveUid w a).isSome →
        (resolveTargets w sel).count a = sel.count a) ∧
      ((resolveUid w a).isSome = false →
        (resolveTargets w sel).count a = 0) ∧
      (sel.Nodup → (resolveTargets w sel).Nodup) := by
  refine ⟨?_, ?_, ?_⟩
  · intro h
    rw [resolveTargets_eq_filter]
    exact List.count_filter h
  · intro h
    rw [resolveTargets_eq_filter, List.count_eq_zero]
    intro hmem
    have hp := (List.mem_filter.mp hmem).2
    rw [h] at hp
    cases hp
  · intro h
    exact h.sublist (resolveTargets_eq_filter w sel ▸ List.filter_sublist sel)

/-- Witness for `C6_amended`: uid `0` occurs twice in `[0, 0, 1]` and twice
in the resolved result over a world where everything exists; uid `1` is
absent from the result over the world missing it; and a duplicate-free
selection resolves duplicate-free. -/
theorem C6_amended_witness :
    (resolveTargets wAll [0, 0, 1]).count 0 = [0, 0, 1].count 0 ∧
      (resolveTargets wB [0, 1, 2]).count 1 = 0 ∧
      (resolveTargets wAll [0, 1]).Nodup :=
  ⟨(C6_amended wAll [0, 0, 1] 0).1 (by decide),
    (C6_amended wB [0, 1, 2] 1).2.1 (by decide),
    (C6_amended wAll [0, 1] 0).2.2 (by decide)⟩

/-- State carried across ticks of the resolution loop: the closure-captured
`prev: Option<Vec<EntityUid>>` together with the trace of publishes (each
publish is the `*targets.lock() = res.into()` write plus the `rerender()`
notification). -/
structure ResolutionState where
  prev : Option (List EntityUid)
  published : List (List EntityUid)
  deriving Repr, DecidableEq

/-- One tick of the `update_targets` closure:
`let res = selection.iter().filter_map(..).collect_vec();`
`if Some(&res) != prev.as_ref() {`
`  prev = Some(res.clone()); *targets.lock() = res.into(); rerender(); }`. -/
def update_targets (w : WorldState) (sel : List EntityUid)
    (rs : ResolutionState) : ResolutionState :=
  let res := resolveTargets w sel
  if some res ≠ rs.prev then
    { prev := some res, published := rs.published ++ [res] }
  else rs

/-- Claim C7: target resolution is idempotent and publishes only on change:
with the selection and the world unchanged, re-running a tick right after a
tick leaves the state exactly as it was — the resolved sequence is identical
and nothing is appended to the publish trace. -/
theorem C7_resolution_idempotent (w : WorldState) (sel : List EntityUid)
    (rs : ResolutionState) :
    update_targets w sel (update_targets w sel rs) = update_targets w sel rs := by
  by_cases h : some (resolveTargets w sel) = rs.prev
  · simp [update_targets, h]
  · simp [update_targets, h]

/-- Events of one tick of the resolution closure, in program order. -/
inductive TickEvent
  | acquireWorldLock
  | lookup (uid : EntityUid)
  | publish (res : List EntityUid)
  | releaseWorldLock
  deriving Repr, DecidableEq

/-- The event trace of one `update_targets` tick, following the Rust
closure's program order: `let state = game_state.lock()` first, the
existence lookups under the guard, the conditional publish (targets-cell
write plus rerender) still inside the guard's scope, and the guard dropped
only at the closure's end — the release is the final event. -/
def update_targets_trace (w : WorldState) (sel : List EntityUid)
    (rs : ResolutionState) : List TickEvent :=
  let res := resolveTargets w sel
  (TickEvent.acquireWorldLock :: sel.map TickEvent.lookup ++
      (if some res ≠ rs.prev then [TickEvent.publish res] else [])) ++
    [TickEvent.releaseWorldLock]

/-- Scans a trace with the lock-held flag and reports whether some publish
event occurs while the world lock is held. -/
def publishesWhileHeld (held : Bool) : List TickEvent → Bool
  | [] => false
  | TickEvent.acquireWorldLock :: rest => publishesWhileHeld true rest
  | TickEvent.releaseWorldLock :: rest => publishesWhileHeld false rest
  | TickEvent.publish _ :: rest => held || publishesWhileHeld held rest
  | TickEvent.lookup _ :: rest => publishesWhileHeld held rest

theorem publishesWhileHeld_lookups (l : List EntityUid) (held : Bool)
    (rest : List TickEvent) :
    publishesWhileHeld held (l.map TickEvent.lookup ++ rest) =
      publishesWhileHeld held rest := by
  induction l with
  | nil => rfl
  | cons a t ih => simpa [publishesWhileHeld] using ih

/-- Claim C9 counterexample: on a tick that publishes (here: fresh state,
selection `[0]`, entity existing), the publish event occurs while the world
lock is held — the lock guard is dropped only at the end of the closure,
after the publish/notify step, contrary to the claim. -/
theorem C9_counterexample :
    update_targets_trace wAll [0] { prev := none, published := [] } =
        [TickEvent.acquireWorldLock, TickEvent.lookup 0, TickEvent.publish [0],
          TickEvent.releaseWorldLock] ∧
      publishesWhileHeld false
          (update_targets_trace wAll [0] { prev := none, published := [] }) =
        true := by
  decide

/-- Claim C9 (amended): the world-mirror lock is held for the whole tick
body: the release is the trace's final event, and whenever a tick publishes,
the publish happens while the lock is held (the guard's scope spans the
whole closure, publish/notify included). -/
theorem C9_amended (w : WorldState) (sel : List EntityUid)
    (rs : ResolutionState) :
    (update_targets_trace w sel rs).getLast? =
        some TickEvent.releaseWorldLock ∧
      (some (resolveTargets w sel) ≠ rs.prev →
        publishesWhileHeld false (update_targets_trace w sel rs) = true) := by
  constructor
  · exact List.getLast?_concat _
  · intro h
    simp only [update_targets_trace]
    rw [if_pos h]
    have hstep : ∀ rest, publishesWhileHeld false
        (TickEvent.acquireWorldLock :: rest) = publishesWhileHeld true rest :=
      fun rest => rfl
    simp only [List.cons_append, List.append_assoc]
    rw [hstep, publishesWhileHeld_lookups]
    rfl

/-- Witness for `C9_amended` at the concrete publishing tick: release is the
final event and the publish happened under the lock. -/
theorem C9_amended_witness :
    (update_targets_trace wAll [0] { prev := none, published := [] }).getLast? =
        some TickEvent.releaseWorldLock ∧
      publishesWhileHeld false
          (update_targets_trace wAll [0] { prev := none, published := [] }) =
        true :=
  ⟨(C9_amended wAll [0] { prev := none, published := [] }).1,
    (C9_amended wAll [0] { prev := none, published := [] }).2 (by decide)⟩
